import Mathlib

/-!
Verification of `permalink-updater.py`, a row pipeline that rewrites EDS
holdings permalinks: for each CSV row it extracts the Aleph doc number that
follows the marker substring after the first occurrence of the marker in the
URL field, resolves it to a FOLIO instance id through one HTTP lookup, builds
a new permalink, and routes the row either to the updated-output collection
or to the error log.

The embedding below translates the script directly:
* a CSV row (`csv.DictReader` row) is an ordered association list of
  field-name / value pairs (`Holding`);
* Python exceptions are values of `PyErr`; the two `except IndexError`
  blocks in `main` catch exactly `PyErr.indexError`, every other error
  (notably `KeyError`) propagates and aborts the run;
* the remote service is an oracle from the full request URL to the parsed
  JSON body; missing JSON keys are `none` fields so that `KeyError` raising
  subscript access is modelled faithfully;
* `mainLoop` is the row loop of `main`; besides the output and error
  accumulators it also returns the trace of HTTP request URLs issued, so
  that lookup-count properties are observable.
-/

namespace EdsPermalinks

/-- Python exception values distinguished by the script: `IndexError` is the
only kind caught in `main`; `KeyError` (dict subscript misses) is fatal. -/
inductive PyErr where
  | indexError : String → PyErr
  | keyError : String → PyErr
deriving DecidableEq

/-- A CSV row as produced by `csv.DictReader`: an ordered association list of
field name to string value, mirroring a Python dict's insertion order. -/
abbrev Holding := List (String × String)

/-- Python dict subscript read `h[k]`: value at the key, or `KeyError`. -/
def getItem (h : Holding) (k : String) : Except PyErr String :=
  match h with
  | [] => .error (.keyError k)
  | (k', v) :: rest => if k' = k then .ok v else getItem rest k

/-- Python dict subscript write `h[k] = v`: replace the value at an existing
key in place, or append the binding at the end when the key is new. -/
def setItem (h : Holding) (k : String) (v : String) : Holding :=
  match h with
  | [] => [(k, v)]
  | (k', v') :: rest => if k' = k then (k, v) :: rest else (k', v') :: setItem rest k v

/-- The field names of a row, in order. -/
def keys (h : Holding) : List String := h.map Prod.fst

/-- The `config.py` configuration surface used by the script. -/
structure Config where
  filename : String
  tenant : String
  connection_url : String
  token : String
  eds_profile_id : String
  eds_group_id : String
  eds_customer_id : String
  eds_catalog_id : String
  school_code : String

/-- The marker substring `"doc_number="` locating the legacy identifier. -/
def markerS : String := "doc_number="

/-- The marker as a character list. -/
def markerL : List Char := markerS.data

/-- Python `str.find` restricted to what the script needs: index of the
first position where `pat` occurs in `s`, or `none` (Python's `-1`). -/
def findFrom (pat : List Char) : List Char → Option Nat
  | [] => if pat.isPrefixOf ([] : List Char) then some 0 else none
  | c :: rest =>
      if pat.isPrefixOf (c :: rest) then some 0
      else (findFrom pat rest).map (· + 1)

/-- `get_doc_number`: slice of the URL after the first occurrence of the
marker; raises `IndexError` when the marker is absent (`find` returned -1). -/
def get_doc_number (url : String) : Except PyErr String :=
  match findFrom markerL url.data with
  | none => .error (.indexError "doc_number not found")
  | some i => .ok ⟨url.data.drop (i + markerL.length)⟩

/-- One element of the `instances` array of the FOLIO response body; its
`id` field is `none` when the JSON object lacks the key. -/
structure LookupInstance where
  id : Option String
deriving DecidableEq

/-- Parsed JSON body of the lookup response; `instances` is `none` when the
body lacks the key (subscripting it then raises `KeyError`). -/
structure LookupResponse where
  instances : Option (List LookupInstance)

/-- The full request URL built in `get_folio_id`:
`config.connection_url + 'inventory/instances' + '?query=identifiers=' + doc_number`. -/
def requestUrl (cfg : Config) (doc_number : String) : String :=
  cfg.connection_url ++ "inventory/instances" ++ "?query=identifiers=" ++ doc_number

/-- `get_folio_id`: issue one GET and evaluate
`request_body['instances'][0]['id']`. Returns the outcome together with the
list of request URLs issued (always exactly one). A missing `instances` or
`id` key raises `KeyError`; an empty `instances` list raises `IndexError`. -/
def get_folio_id (cfg : Config) (lookup : String → LookupResponse)
    (doc_number : String) : Except PyErr String × List String :=
  match (lookup (requestUrl cfg doc_number)).instances with
  | none => (.error (.keyError "instances"), [requestUrl cfg doc_number])
  | some [] => (.error (.indexError "list index out of range"), [requestUrl cfg doc_number])
  | some (inst :: _) =>
    match inst.id with
    | none => (.error (.keyError "id"), [requestUrl cfg doc_number])
    | some fid => (.ok fid, [requestUrl cfg doc_number])

/-- `folio_id.replace('-', '.')`: every hyphen becomes a period. -/
def cleanFolioId (fid : String) : String :=
  ⟨fid.data.map (fun c => if c = '-' then '.' else c)⟩

/-- `build_permalink`: the fixed permalink template interpolated with the
configuration values and the cleaned FOLIO id. -/
def build_permalink (cfg : Config) (folio_id : String) : String :=
  "https://search.ebscohost.com/login.aspx?" ++
  "authtype=ip,guest&" ++
  "custid=" ++ cfg.eds_customer_id ++ "&" ++
  "groupid=" ++ cfg.eds_group_id ++ "&" ++
  "profid=" ++ cfg.eds_profile_id ++ "&" ++
  "db=" ++ cfg.eds_catalog_id ++ "&" ++
  "direct=true&" ++
  "site=eds-live&" ++
  "scope=site&" ++
  "AN=" ++ cfg.school_code ++ "." ++
  "oai.edge.fivecolleges.folio.ebsco.com.fs00001006." ++ cleanFolioId folio_id

/-- Outcome of processing one row in `main`'s loop body: the control-flow
result (emitted row, error-log message, or uncaught exception), the final
state of the row's dict, and the HTTP requests issued while processing it. -/
structure RowOutcome where
  result : Except PyErr (Holding ⊕ String)
  final : Holding
  queries : List String

/-- One iteration of the `for holding in reader` loop of `main`. The first
`try` block catches only `IndexError` from `get_doc_number`; the second
catches only `IndexError` from `get_folio_id`; `KeyError` from any dict
subscript propagates. On success the old URL is copied into
`UserDefinedField2`, the URL field is replaced, and then the progress
notice `print('Updating ' + holding['Title'])` reads the Title field of the
already-mutated dict — a row lacking Title raises an uncaught `KeyError`
there, after the mutations and before the append. -/
def processRow (cfg : Config) (lookup : String → LookupResponse) (h : Holding) :
    RowOutcome :=
  match getItem h "URL" with
  | .error e => ⟨.error e, h, []⟩
  | .ok url =>
    match get_doc_number url with
    | .error (.indexError _) =>
      match getItem h "Title" with
      | .error e => ⟨.error e, h, []⟩
      | .ok t => ⟨.ok (.inr ("Could not find doc_number for " ++ t)), h, []⟩
    | .error e => ⟨.error e, h, []⟩
    | .ok dn =>
      match get_folio_id cfg lookup dn with
      | (.error (.indexError _), q) =>
        match getItem h "Title" with
        | .error e => ⟨.error e, h, q⟩
        | .ok t =>
          ⟨.ok (.inr ("Could not find FOLIO ID for " ++ t ++ " - " ++ dn)), h, q⟩
      | (.error e, q) => ⟨.error e, h, q⟩
      | (.ok fid, q) =>
        match getItem (setItem (setItem h "UserDefinedField2" url) "URL"
            (build_permalink cfg fid)) "Title" with
        | .error e =>
          ⟨.error e,
           setItem (setItem h "UserDefinedField2" url) "URL" (build_permalink cfg fid),
           q⟩
        | .ok _ =>
          ⟨.ok (.inl (setItem (setItem h "UserDefinedField2" url) "URL"
              (build_permalink cfg fid))),
           setItem (setItem h "UserDefinedField2" url) "URL" (build_permalink cfg fid),
           q⟩

/-- The row loop of `main`: returns (when no exception escapes) the
`updated_holding_list` and `error_list` accumulators, paired with the trace
of HTTP request URLs issued, in order. An uncaught exception aborts the
loop, discarding both accumulators (no output file is written). -/
def mainLoop (cfg : Config) (lookup : String → LookupResponse) :
    List Holding → Except PyErr (List Holding × List String) × List String
  | [] => (.ok ([], []), [])
  | h :: rest =>
    match (processRow cfg lookup h).result with
    | .error e => (.error e, (processRow cfg lookup h).queries)
    | .ok (.inl upd) =>
      ((mainLoop cfg lookup rest).1.map (fun p => (upd :: p.1, p.2)),
       (processRow cfg lookup h).queries ++ (mainLoop cfg lookup rest).2)
    | .ok (.inr msg) =>
      ((mainLoop cfg lookup rest).1.map (fun p => (p.1, msg :: p.2)),
       (processRow cfg lookup h).queries ++ (mainLoop cfg lookup rest).2)

/-- The row emitted to the output collection by one row, if any. -/
def emitOf (cfg : Config) (lookup : String → LookupResponse) (h : Holding) :
    Option Holding :=
  match (processRow cfg lookup h).result with
  | .ok (.inl upd) => some upd
  | _ => none

/-- The error-log entry produced by one row, if any. -/
def errOf (cfg : Config) (lookup : String → LookupResponse) (h : Holding) :
    Option String :=
  match (processRow cfg lookup h).result with
  | .ok (.inr msg) => some msg
  | _ => none

/-- The legacy identifier a row submits to the lookup service, if its
extraction stage succeeds. -/
def extractedKey (h : Holding) : Option String :=
  match getItem h "URL" with
  | .ok url =>
    match get_doc_number url with
    | .ok dn => some dn
    | .error _ => none
  | .error _ => none

/-! ### Lemmas about the dict operations -/

theorem getItem_setItem_self (k v : String) :
    ∀ h : Holding, getItem (setItem h k v) k = .ok v := by
  intro h
  induction h with
  | nil => simp [setItem, getItem]
  | cons p rest ih =>
    obtain ⟨k', v'⟩ := p
    by_cases hk : k' = k
    · simp [setItem, hk, getItem]
    · simp [setItem, hk, getItem, ih]

theorem getItem_setItem_of_ne {k' k : String} (hne : k' ≠ k) (v : String) :
    ∀ h : Holding, getItem (setItem h k v) k' = getItem h k' := by
  intro h
  induction h with
  | nil => simp [setItem, getItem, Ne.symm hne]
  | cons p rest ih =>
    obtain ⟨k₀, v₀⟩ := p
    by_cases hk : k₀ = k
    · subst hk
      simp [setItem, getItem, Ne.symm hne, hne]
    · by_cases hk' : k₀ = k'
      · simp [setItem, hk, getItem, hk', hne]
      · simp [setItem, hk, getItem, hk', ih]

theorem keys_setItem_of_mem {k : String} (v : String) :
    ∀ h : Holding, k ∈ keys h → keys (setItem h k v) = keys h := by
  intro h
  induction h with
  | nil => intro hk; simp [keys] at hk
  | cons p rest ih =>
    obtain ⟨k₀, v₀⟩ := p
    intro hk
    by_cases hk0 : k₀ = k
    · simp [setItem, hk0, keys]
    · have hmem : k ∈ keys rest := by
        simp [keys] at hk
        rcases hk with hk | hk
        · exact absurd hk.symm hk0
        · simpa [keys] using hk
      simp only [setItem, if_neg hk0, keys, List.map_cons]
      exact congrArg (List.cons k₀) (ih hmem)

theorem getItem_ok_mem_keys : ∀ (h : Holding) (k v : String),
    getItem h k = .ok v → k ∈ keys h := by
  intro h
  induction h with
  | nil => intro k v hk; simp [getItem] at hk
  | cons p rest ih =>
    obtain ⟨k₀, v₀⟩ := p
    intro k v hk
    by_cases hk0 : k₀ = k
    · simp [keys, hk0]
    · simp only [getItem, if_neg hk0] at hk
      simp only [keys, List.map_cons, List.mem_cons]
      exact Or.inr (ih k v hk)

/-! ### Lemmas about marker search -/

theorem isPrefixOf_char_iff :
    ∀ l₁ l₂ : List Char, l₁.isPrefixOf l₂ = true ↔ ∃ t, l₂ = l₁ ++ t
  | [], l₂ => by simp [List.isPrefixOf]
  | a :: as, [] => by simp [List.isPrefixOf]
  | a :: as, b :: bs => by
    simp only [List.isPrefixOf, Bool.and_eq_true, beq_iff_eq, List.cons_append,
      List.cons.injEq]
    constructor
    · rintro ⟨hab, hp⟩
      obtain ⟨t, ht⟩ := (isPrefixOf_char_iff as bs).1 hp
      exact ⟨t, hab.symm, ht⟩
    · rintro ⟨t, hb, hbs⟩
      exact ⟨hb.symm, (isPrefixOf_char_iff as bs).2 ⟨t, hbs⟩⟩

theorem findFrom_eq_none_iff (pat : List Char) :
    ∀ s : List Char, findFrom pat s = none ↔ ∀ pre suf : List Char, s ≠ pre ++ (pat ++ suf) := by
  intro s
  induction s with
  | nil =>
    by_cases hp : pat.isPrefixOf ([] : List Char) = true
    · obtain ⟨t, ht⟩ := (isPrefixOf_char_iff pat []).1 hp
      have hpat : pat = [] := (List.append_eq_nil.mp ht.symm).1
      subst hpat
      simp [findFrom]
    · simp only [findFrom, if_neg hp]
      constructor
      · intro _ pre suf heq
        have h2 := (List.append_eq_nil.mp heq.symm).2
        have hpat : pat = [] := (List.append_eq_nil.mp h2).1
        subst hpat
        simp [List.isPrefixOf] at hp
      · intro _
        trivial
  | cons c rest ih =>
    by_cases hp : pat.isPrefixOf (c :: rest) = true
    · obtain ⟨t, ht⟩ := (isPrefixOf_char_iff pat (c :: rest)).1 hp
      simp only [findFrom, if_pos hp]
      constructor
      · intro h
        exact absurd h (by simp)
      · intro hall
        exact absurd ht (by simpa using hall [] t)
    · simp only [findFrom, if_neg hp]
      cases hfr : findFrom pat rest with
      | none =>
        have hrest := ih.mp hfr
        constructor
        · intro _ pre suf heq
          cases pre with
          | nil =>
            simp only [List.nil_append] at heq
            exact hp ((isPrefixOf_char_iff pat (c :: rest)).2 ⟨suf, heq⟩)
          | cons p pre' =>
            simp only [List.cons_append, List.cons.injEq] at heq
            exact hrest pre' suf heq.2
        · intro _
          trivial
      | some i' =>
        constructor
        · intro h
          exact absurd h (by simp)
        · intro hall
          have hR : ∀ pre suf : List Char, rest ≠ pre ++ (pat ++ suf) := by
            intro pre suf heq
            exact hall (c :: pre) suf (by simp [heq])
          exact absurd (ih.mpr hR) (by simp [hfr])

theorem findFrom_drop (pat : List Char) :
    ∀ (s : List Char) (i : Nat), findFrom pat s = some i →
      s.drop i = pat ++ s.drop (i + pat.length) := by
  intro s
  induction s with
  | nil =>
    intro i hi
    by_cases hp : pat.isPrefixOf ([] : List Char) = true
    · obtain ⟨t, ht⟩ := (isPrefixOf_char_iff pat []).1 hp
      have hpat : pat = [] := (List.append_eq_nil.mp ht.symm).1
      subst hpat
      simp only [findFrom] at hi
      rw [if_pos hp] at hi
      have hz : 0 = i := by simpa using hi
      subst hz
      simp
    · simp only [findFrom, if_neg hp] at hi
      exact absurd hi (by simp)
  | cons c rest ih =>
    intro i hi
    by_cases hp : pat.isPrefixOf (c :: rest) = true
    · obtain ⟨t, ht⟩ := (isPrefixOf_char_iff pat (c :: rest)).1 hp
      simp only [findFrom, if_pos hp, Option.some.injEq] at hi
      subst hi
      simp only [List.drop_zero, Nat.zero_add, ht]
      congr 1
      rw [List.drop_left]
    · simp only [findFrom, if_neg hp] at hi
      cases hfr : findFrom pat rest with
      | none =>
        rw [hfr] at hi
        simp at hi
      | some i' =>
        rw [hfr] at hi
        have hi' : i' + 1 = i := by simpa using hi
        subst hi'
        have := ih i' hfr
        simpa [Nat.add_right_comm] using this

theorem findFrom_bound (pat : List Char) :
    ∀ (s : List Char) (i : Nat), findFrom pat s = some i → i + pat.length ≤ s.length := by
  intro s
  induction s with
  | nil =>
    intro i hi
    by_cases hp : pat.isPrefixOf ([] : List Char) = true
    · obtain ⟨t, ht⟩ := (isPrefixOf_char_iff pat []).1 hp
      have hpat : pat = [] := (List.append_eq_nil.mp ht.symm).1
      subst hpat
      simp only [findFrom] at hi
      rw [if_pos hp] at hi
      have hz : 0 = i := by simpa using hi
      subst hz
      simp
    · simp only [findFrom, if_neg hp] at hi
      exact absurd hi (by simp)
  | cons c rest ih =>
    intro i hi
    by_cases hp : pat.isPrefixOf (c :: rest) = true
    · obtain ⟨t, ht⟩ := (isPrefixOf_char_iff pat (c :: rest)).1 hp
      simp only [findFrom, if_pos hp, Option.some.injEq] at hi
      subst hi
      rw [ht]
      simp
    · simp only [findFrom, if_neg hp] at hi
      cases hfr : findFrom pat rest with
      | none =>
        rw [hfr] at hi
        simp at hi
      | some i' =>
        rw [hfr] at hi
        have hi' : i' + 1 = i := by simpa using hi
        subst hi'
        have := ih i' hfr
        simp only [List.length_cons]
        omega

theorem findFrom_min (pat : List Char) :
    ∀ (s : List Char) (i : Nat) (pre suf : List Char), findFrom pat s = some i →
      s = pre ++ (pat ++ suf) → i ≤ pre.length := by
  intro s
  induction s with
  | nil =>
    intro i pre suf hfind _
    by_cases hp : pat.isPrefixOf ([] : List Char) = true
    · simp only [findFrom, if_pos hp, Option.some.injEq] at hfind
      omega
    · simp only [findFrom, if_neg hp] at hfind
      exact absurd hfind (by simp)
  | cons c rest ih =>
    intro i pre suf hfind hdecomp
    by_cases hp : pat.isPrefixOf (c :: rest) = true
    · simp only [findFrom, if_pos hp, Option.some.injEq] at hfind
      omega
    · simp only [findFrom, if_neg hp] at hfind
      cases hfr : findFrom pat rest with
      | none =>
        rw [hfr] at hfind
        simp at hfind
      | some i' =>
        rw [hfr] at hfind
        have hfind' : i' + 1 = i := by simpa using hfind
        subst hfind'
        cases pre with
        | nil =>
          simp only [List.nil_append] at hdecomp
          exact absurd ((isPrefixOf_char_iff pat (c :: rest)).2 ⟨suf, hdecomp⟩) hp
        | cons p pre' =>
          simp only [List.cons_append, List.cons.injEq] at hdecomp
          have := ih i' pre' suf hfr hdecomp.2
          simp only [List.length_cons]
          omega

/-! ### Characterization of the extraction and resolution stages -/

theorem get_folio_id_queries (cfg : Config) (lookup : String → LookupResponse)
    (dn : String) : (get_folio_id cfg lookup dn).2 = [requestUrl cfg dn] := by
  rcases hins : (lookup (requestUrl cfg dn)).instances with _ | ⟨_ | ⟨inst, tl⟩⟩
  · simp [get_folio_id, hins]
  · simp [get_folio_id, hins]
  · rcases hid : inst.id with _ | fid
    · simp [get_folio_id, hins, hid]
    · simp [get_folio_id, hins, hid]

theorem get_doc_number_error_shape {url : String} {e : PyErr}
    (h : get_doc_number url = .error e) : e = .indexError "doc_number not found" := by
  unfold get_doc_number at h
  rcases hf : findFrom markerL url.data with _ | i
  · rw [hf] at h
    exact (Except.error.inj h).symm
  · rw [hf] at h
    simp at h

theorem get_doc_number_ok_decomp {url : String} {r : String}
    (h : get_doc_number url = .ok r) :
    ∃ pre : List Char, url.data = pre ++ (markerL ++ r.data) := by
  unfold get_doc_number at h
  rcases hf : findFrom markerL url.data with _ | i
  · rw [hf] at h
    simp at h
  · rw [hf] at h
    have hr : r = ⟨url.data.drop (i + markerL.length)⟩ := (Except.ok.inj h).symm
    subst hr
    have hdrop := findFrom_drop markerL url.data i hf
    refine ⟨url.data.take i, ?_⟩
    calc url.data = url.data.take i ++ url.data.drop i := (List.take_append_drop i url.data).symm
    _ = url.data.take i ++ (markerL ++ String.data ⟨url.data.drop (i + markerL.length)⟩) := by
        rw [hdrop]

theorem get_doc_number_error_iff (url : String) :
    (∃ e, get_doc_number url = .error e) ↔
      ∀ pre suf : List Char, url.data ≠ pre ++ (markerL ++ suf) := by
  constructor
  · rintro ⟨e, he⟩
    unfold get_doc_number at he
    rcases hf : findFrom markerL url.data with _ | i
    · exact (findFrom_eq_none_iff markerL url.data).1 hf
    · rw [hf] at he
      simp at he
  · intro hnone
    have hf : findFrom markerL url.data = none :=
      (findFrom_eq_none_iff markerL url.data).2 hnone
    exact ⟨.indexError "doc_number not found", by simp [get_doc_number, hf]⟩

theorem get_doc_number_first_occ {url : String} {pre suf : List Char}
    (hdecomp : url.data = pre ++ (markerL ++ suf))
    (hfirst : ∀ j, j < pre.length → markerL.isPrefixOf (url.data.drop j) = false) :
    get_doc_number url = .ok ⟨suf⟩ := by
  rcases hf : findFrom markerL url.data with _ | i
  · exact absurd hdecomp ((findFrom_eq_none_iff markerL url.data).1 hf pre suf)
  · have hle := findFrom_min markerL url.data i pre suf hf hdecomp
    have hdrop := findFrom_drop markerL url.data i hf
    have hi : i = pre.length := by
      rcases Nat.lt_or_ge i pre.length with hlt | hge
      · have hpref : markerL.isPrefixOf (url.data.drop i) = true :=
          (isPrefixOf_char_iff markerL (url.data.drop i)).2
            ⟨url.data.drop (i + markerL.length), hdrop⟩
        rw [hfirst i hlt] at hpref
        exact absurd hpref (by simp)
      · omega
    subst hi
    have hsuf : url.data.drop (pre.length + markerL.length) = suf := by
      rw [hdecomp, ← List.append_assoc]
      have hlen : (pre ++ markerL).length = pre.length + markerL.length := by simp
      rw [← hlen, List.drop_left]
    simp [get_doc_number, hf, hsuf]

/-! ### Characterization of one loop iteration -/

theorem processRow_extract_fail (cfg : Config) (lookup : String → LookupResponse)
    (h : Holding) {url t : String} {e : PyErr}
    (hURL : getItem h "URL" = .ok url) (hT : getItem h "Title" = .ok t)
    (herr : get_doc_number url = .error e) :
    processRow cfg lookup h = ⟨.ok (.inr ("Could not find doc_number for " ++ t)), h, []⟩ := by
  have he := get_doc_number_error_shape herr
  subst he
  simp only [processRow, hURL, herr, hT]

theorem processRow_resolve_fail (cfg : Config) (lookup : String → LookupResponse)
    (h : Holding) {url t dn : String}
    (hURL : getItem h "URL" = .ok url) (hT : getItem h "Title" = .ok t)
    (hdn : get_doc_number url = .ok dn)
    (hempty : (lookup (requestUrl cfg dn)).instances = some []) :
    processRow cfg lookup h =
      ⟨.ok (.inr ("Could not find FOLIO ID for " ++ t ++ " - " ++ dn)), h,
       [requestUrl cfg dn]⟩ := by
  have hg : get_folio_id cfg lookup dn =
      (.error (.indexError "list index out of range"), [requestUrl cfg dn]) := by
    simp [get_folio_id, hempty]
  simp only [processRow, hURL, hdn, hg, hT]

theorem processRow_success (cfg : Config) (lookup : String → LookupResponse)
    (h : Holding) {url t dn fid : String}
    (hURL : getItem h "URL" = .ok url) (hT : getItem h "Title" = .ok t)
    (hdn : get_doc_number url = .ok dn)
    (hres : (get_folio_id cfg lookup dn).1 = .ok fid) :
    processRow cfg lookup h =
      ⟨.ok (.inl (setItem (setItem h "UserDefinedField2" url) "URL"
          (build_permalink cfg fid))),
       setItem (setItem h "UserDefinedField2" url) "URL" (build_permalink cfg fid),
       [requestUrl cfg dn]⟩ := by
  have hq := get_folio_id_queries cfg lookup dn
  have hg : get_folio_id cfg lookup dn = (.ok fid, [requestUrl cfg dn]) := by
    rcases hgf : get_folio_id cfg lookup dn with ⟨res, q⟩
    rw [hgf] at hres hq
    simp only at hres hq
    rw [hres, hq]
  have hT2 : getItem (setItem (setItem h "UserDefinedField2" url) "URL"
      (build_permalink cfg fid)) "Title" = .ok t := by
    rw [getItem_setItem_of_ne (by decide) (build_permalink cfg fid),
      getItem_setItem_of_ne (by decide) url]
    exact hT
  simp only [processRow, hURL, hdn, hg, hT2]

theorem processRow_queries_of_ok (cfg : Config) (lookup : String → LookupResponse)
    (h : Holding) {x : Holding ⊕ String}
    (hx : (processRow cfg lookup h).result = .ok x) :
    (processRow cfg lookup h).queries = ((extractedKey h).map (requestUrl cfg)).toList := by
  rcases hu : getItem h "URL" with e | url
  · simp [processRow, hu] at hx
  · rcases hd : get_doc_number url with e | dn
    · have he := get_doc_number_error_shape hd
      subst he
      rcases ht : getItem h "Title" with e' | t
      · simp [processRow, hu, hd, ht] at hx
      · simp [processRow, hu, hd, ht, extractedKey]
    · have hq := get_folio_id_queries cfg lookup dn
      rcases hg : get_folio_id cfg lookup dn with ⟨res, q⟩
      rw [hg] at hq
      simp only at hq
      subst hq
      rcases res with e | fid
      · cases e with
        | indexError m =>
          rcases ht : getItem h "Title" with e' | t
          · simp [processRow, hu, hd, hg, ht] at hx
          · simp [processRow, hu, hd, hg, ht, extractedKey]
        | keyError k => simp [processRow, hu, hd, hg] at hx
      · rcases ht2 : getItem (setItem (setItem h "UserDefinedField2" url) "URL"
            (build_permalink cfg fid)) "Title" with e' | t'
        · simp [processRow, hu, hd, hg, ht2] at hx
        · simp [processRow, hu, hd, hg, ht2, extractedKey]

/-! ### Characterization of the whole loop on runs without a fatal error -/

theorem mainLoop_ok_char (cfg : Config) (lookup : String → LookupResponse) :
    ∀ (rows outs : List Holding) (errs : List String),
      (mainLoop cfg lookup rows).1 = .ok (outs, errs) →
      outs = rows.filterMap (emitOf cfg lookup)
      ∧ errs = rows.filterMap (errOf cfg lookup)
      ∧ (mainLoop cfg lookup rows).2 =
          rows.filterMap (fun h => (extractedKey h).map (requestUrl cfg))
      ∧ outs.length + errs.length = rows.length
      ∧ ∀ h ∈ rows, ∃ x, (processRow cfg lookup h).result = .ok x := by
  intro rows
  induction rows with
  | nil =>
    intro outs errs hok
    simp only [mainLoop] at hok
    have := Except.ok.inj hok
    obtain ⟨h1, h2⟩ := Prod.mk.injEq _ _ _ _ |>.mp this
    subst h1
    subst h2
    simp [mainLoop]
  | cons h rest ih =>
    intro outs errs hok
    rcases hres : (processRow cfg lookup h).result with e | x
    · simp only [mainLoop, hres] at hok
      simp at hok
    · have hqr := processRow_queries_of_ok cfg lookup h hres
      rcases x with upd | msg
      · simp only [mainLoop, hres] at hok ⊢
        rcases hrest : (mainLoop cfg lookup rest).1 with e | p
        · rw [hrest] at hok
          simp [Except.map] at hok
        · rw [hrest] at hok
          obtain ⟨outs', errs'⟩ := p
          simp only [Except.map] at hok
          have hinj := Except.ok.inj hok
          obtain ⟨h1, h2⟩ := Prod.mk.injEq _ _ _ _ |>.mp hinj
          subst h1
          subst h2
          obtain ⟨e1, e2, e3, e4, e5⟩ := ih outs' errs' hrest
          have hemit : emitOf cfg lookup h = some upd := by simp [emitOf, hres]
          have herr : errOf cfg lookup h = none := by simp [errOf, hres]
          refine ⟨?_, ?_, ?_, ?_, ?_⟩
          · simp [List.filterMap_cons, hemit, e1]
          · simp [List.filterMap_cons, herr, e2]
          · rw [hqr, e3, List.filterMap_cons]
            rcases hek : extractedKey h with _ | dn
            · simp
            · simp
          · simp only [List.length_cons, List.length]
            omega
          · intro h' hm
            rcases List.mem_cons.mp hm with hm | hm
            · subst hm
              exact ⟨.inl upd, hres⟩
            · exact e5 h' hm
      · simp only [mainLoop, hres] at hok ⊢
        rcases hrest : (mainLoop cfg lookup rest).1 with e | p
        · rw [hrest] at hok
          simp [Except.map] at hok
        · rw [hrest] at hok
          obtain ⟨outs', errs'⟩ := p
          simp only [Except.map] at hok
          have hinj := Except.ok.inj hok
          obtain ⟨h1, h2⟩ := Prod.mk.injEq _ _ _ _ |>.mp hinj
          subst h1
          subst h2
          obtain ⟨e1, e2, e3, e4, e5⟩ := ih outs' errs' hrest
          have hemit : emitOf cfg lookup h = none := by simp [emitOf, hres]
          have herr : errOf cfg lookup h = some msg := by simp [errOf, hres]
          refine ⟨?_, ?_, ?_, ?_, ?_⟩
          · simp [List.filterMap_cons, hemit, e1]
          · simp [List.filterMap_cons, herr, e2]
          · rw [hqr, e3, List.filterMap_cons]
            rcases hek : extractedKey h with _ | dn
            · simp
            · simp
          · simp only [List.length_cons, List.length]
            omega
          · intro h' hm
            rcases List.mem_cons.mp hm with hm | hm
            · subst hm
              exact ⟨.inr msg, hres⟩
            · exact e5 h' hm

/-! ### String helper lemmas -/

theorem str_data_append (s t : String) : (s ++ t).data = s.data ++ t.data := rfl

theorem str_ext {s t : String} (h : s.data = t.data) : s = t := by
  cases s
  cases t
  exact congrArg String.mk h

theorem str_append_assoc (a b c : String) : a ++ b ++ c = a ++ (b ++ c) :=
  str_ext (by simp [str_data_append])

/-- The two error messages of the script can never collide, whatever the
title and identifier interpolated into them: they differ at character 15. -/
theorem folio_msg_ne_docnum_msg (t s : String) :
    ("Could not find FOLIO ID for " ++ t ++ " - " ++ s) ≠
      ("Could not find doc_number for " ++ t) := by
  intro heq
  have hdata : (("Could not find FOLIO ID for " : String).data ++
      (t.data ++ ((" - " : String).data ++ s.data))) =
      ("Could not find doc_number for " : String).data ++ t.data := by
    have hd := congrArg String.data heq
    simp only [str_data_append, List.append_assoc] at hd
    exact hd
  have hL : (("Could not find FOLIO ID for " : String).data ++
      (t.data ++ ((" - " : String).data ++ s.data)))[15]? = some 'F' := by
    rw [List.getElem?_append_left (by decide)]
    decide
  have hR : (("Could not find doc_number for " : String).data ++ t.data)[15]? =
      some 'd' := by
    rw [List.getElem?_append_left (by decide)]
    decide
  rw [hdata] at hL
  exact absurd (hL.symm.trans hR) (by decide)

/-! ### Concrete test fixtures -/

/-- A concrete configuration used by the concrete runs below. -/
def cfg0 : Config :=
  ⟨"holdings.csv", "fs00001006", "https://okapi.example.org/", "tok",
   "prof", "grp", "cust", "cat", "mhf"⟩

/-- A legacy URL carrying the marker and doc number 000123. -/
def urlA : String := "https://aleph.example.org/F?func=direct&doc_number=000123"

/-- A row that resolves successfully under `lookup0`. -/
def rowA : Holding := [("Title", "Alpha"), ("URL", urlA), ("UserDefinedField2", "")]

/-- A row whose URL lacks the marker: extraction fails. -/
def rowB : Holding :=
  [("Title", "Beta"), ("URL", "https://aleph.example.org/F?func=direct"),
   ("UserDefinedField2", "")]

/-- A legacy URL carrying doc number 000999, unknown to `lookup0`. -/
def urlC : String := "https://aleph.example.org/F?func=direct&doc_number=000999"

/-- A row whose lookup returns an empty match list: resolution fails. -/
def rowC : Holding := [("Title", "Gamma"), ("URL", urlC), ("UserDefinedField2", "old")]

/-- A row whose URL ends with the marker and contains it nowhere earlier. -/
def rowD : Holding :=
  [("Title", "Delta"), ("URL", "https://x?doc_number="), ("UserDefinedField2", "")]

/-- The FOLIO id that `lookup0` resolves doc number 000123 to. -/
def fidA : String := "11111111-2222-3333-4444-555555555555"

/-- A lookup oracle: doc number 000123 has one match, everything else none. -/
def lookup0 : String → LookupResponse := fun u =>
  if u = requestUrl cfg0 "000123" then ⟨some [⟨some fidA⟩]⟩ else ⟨some []⟩

/-- A lookup oracle whose response body lacks the `instances` key entirely. -/
def lookupAbsent : String → LookupResponse := fun _ => ⟨none⟩

/-- The row `rowA` after its successful update. -/
def updA : Holding :=
  setItem (setItem rowA "UserDefinedField2" urlA) "URL" (build_permalink cfg0 fidA)

/-- A URL that ends with the marker but whose first marker occurrence is
earlier, so the extracted identifier is not empty. -/
def urlTwoMarkers : String := "https://x?doc_number=1&doc_number="

/-- A URL containing the marker twice, with material after each occurrence. -/
def urlDouble : String := "a?doc_number=1&doc_number=2"

/-! ### Claim theorems -/

/-- C1: on a run of the row loop that no uncaught exception aborts, every
input row produces exactly one outcome — it is either emitted to the output
collection or it contributes exactly one error-log entry, never both — and
therefore the number of output rows plus the number of error-log entries
equals the total number of input rows. -/
theorem main_row_outcome_partition (cfg : Config) (lookup : String → LookupResponse)
    (rows outs : List Holding) (errs : List String)
    (hok : (mainLoop cfg lookup rows).1 = .ok (outs, errs)) :
    outs.length + errs.length = rows.length
    ∧ ∀ h ∈ rows,
        ((∃ upd, emitOf cfg lookup h = some upd) ∧ errOf cfg lookup h = none)
        ∨ (emitOf cfg lookup h = none ∧ ∃ msg, errOf cfg lookup h = some msg) := by
  obtain ⟨e1, e2, e3, e4, e5⟩ := mainLoop_ok_char cfg lookup rows outs errs hok
  refine ⟨e4, ?_⟩
  intro h hm
  obtain ⟨x, hx⟩ := e5 h hm
  rcases x with upd | msg
  · exact Or.inl ⟨⟨upd, by simp [emitOf, hx]⟩, by simp [errOf, hx]⟩
  · exact Or.inr ⟨by simp [emitOf, hx], ⟨msg, by simp [errOf, hx]⟩⟩

/-- C1 witness: a concrete three-row run — one emitted row, one extraction
failure and one resolution failure — instantiating the partition theorem. -/
theorem main_row_outcome_partition_witness :
    ([updA].length + (["Could not find doc_number for Beta",
        "Could not find FOLIO ID for Gamma - 000999"] : List String).length =
      ([rowA, rowB, rowC] : List Holding).length)
    ∧ ∀ h ∈ ([rowA, rowB, rowC] : List Holding),
        ((∃ upd, emitOf cfg0 lookup0 h = some upd) ∧ errOf cfg0 lookup0 h = none)
        ∨ (emitOf cfg0 lookup0 h = none ∧ ∃ msg, errOf cfg0 lookup0 h = some msg) :=
  main_row_outcome_partition cfg0 lookup0 [rowA, rowB, rowC] [updA]
    ["Could not find doc_number for Beta", "Could not find FOLIO ID for Gamma - 000999"]
    rfl

/-- C2 counterexample: the claim says a response whose match list is absent
routes the row to the error collection and processing continues; in the code
the subscript `request_body['instances']` raises `KeyError`, which the
`except IndexError` handler does not catch, so no error entry is produced
and the whole batch aborts at that row. -/
theorem resolution_absent_aborts_cex :
    (lookupAbsent (requestUrl cfg0 "000123")).instances = none
    ∧ (processRow cfg0 lookupAbsent rowA).result = .error (.keyError "instances")
    ∧ errOf cfg0 lookupAbsent rowA = none
    ∧ (mainLoop cfg0 lookupAbsent [rowA, rowB]).1 = .error (.keyError "instances") :=
  ⟨rfl, rfl, rfl, rfl⟩

/-- C2 (amended): for every row whose identifier extraction succeeds, the
resolve step queries the remote lookup service exactly once with the legacy
identifier and takes the id of the first element of the response's match
list; when the match list is present but empty, the step fails recoverably:
the row is routed to the error collection with the message
"Could not find FOLIO ID for {Title} - {legacy_identifier}" and processing
continues with the remaining rows. (A response whose match list is absent
instead raises an uncaught KeyError that aborts the batch.) -/
theorem resolve_first_match_and_recover_on_empty (cfg : Config)
    (lookup : String → LookupResponse) (h : Holding) (rest : List Holding)
    (url t dn : String)
    (hURL : getItem h "URL" = .ok url) (hT : getItem h "Title" = .ok t)
    (hdn : get_doc_number url = .ok dn) :
    (get_folio_id cfg lookup dn).2 = [requestUrl cfg dn]
    ∧ (∀ inst tl fid, (lookup (requestUrl cfg dn)).instances = some (inst :: tl) →
        inst.id = some fid → (get_folio_id cfg lookup dn).1 = .ok fid)
    ∧ ((lookup (requestUrl cfg dn)).instances = some [] →
        mainLoop cfg lookup (h :: rest) =
          ((mainLoop cfg lookup rest).1.map
            (fun p => (p.1, ("Could not find FOLIO ID for " ++ t ++ " - " ++ dn) :: p.2)),
           requestUrl cfg dn :: (mainLoop cfg lookup rest).2)) := by
  refine ⟨get_folio_id_queries cfg lookup dn, ?_, ?_⟩
  · intro inst tl fid hins hid
    simp [get_folio_id, hins, hid]
  · intro hempty
    have hpr := processRow_resolve_fail cfg lookup h hURL hT hdn hempty
    simp only [mainLoop, hpr]
    simp

/-- C2 witness: the empty-match-list row `rowC` of a concrete run. -/
theorem resolve_first_match_and_recover_on_empty_witness :
    (get_folio_id cfg0 lookup0 "000999").2 = [requestUrl cfg0 "000999"]
    ∧ (∀ inst tl fid, (lookup0 (requestUrl cfg0 "000999")).instances = some (inst :: tl) →
        inst.id = some fid → (get_folio_id cfg0 lookup0 "000999").1 = .ok fid)
    ∧ ((lookup0 (requestUrl cfg0 "000999")).instances = some [] →
        mainLoop cfg0 lookup0 (rowC :: [rowA]) =
          ((mainLoop cfg0 lookup0 [rowA]).1.map
            (fun p => (p.1, ("Could not find FOLIO ID for " ++ "Gamma" ++ " - " ++ "000999") :: p.2)),
           requestUrl cfg0 "000999" :: (mainLoop cfg0 lookup0 [rowA]).2)) :=
  resolve_first_match_and_recover_on_empty cfg0 lookup0 rowC [rowA] urlC "Gamma" "000999"
    rfl rfl rfl

/-- C3: identifier extraction returns exactly the characters after the
marker substring when it occurs in the URL, fails precisely when the marker
is absent, and a failing row is routed to the error collection with the
message "Could not find doc_number for {Title}" while the loop continues
with the remaining rows. -/
theorem extract_marker_spec (cfg : Config) (lookup : String → LookupResponse)
    (h : Holding) (rest : List Holding) (url t : String)
    (hURL : getItem h "URL" = .ok url) (hT : getItem h "Title" = .ok t) :
    (∀ r, get_doc_number url = .ok r → ∃ pre, url.data = pre ++ (markerL ++ r.data))
    ∧ ((∃ e, get_doc_number url = .error e) ↔
        ∀ pre suf : List Char, url.data ≠ pre ++ (markerL ++ suf))
    ∧ (∀ e, get_doc_number url = .error e →
        mainLoop cfg lookup (h :: rest) =
          ((mainLoop cfg lookup rest).1.map
            (fun p => (p.1, ("Could not find doc_number for " ++ t) :: p.2)),
           (mainLoop cfg lookup rest).2)) := by
  refine ⟨fun r hr => get_doc_number_ok_decomp hr, get_doc_number_error_iff url, ?_⟩
  intro e herr
  have hpr := processRow_extract_fail cfg lookup h hURL hT herr
  simp only [mainLoop, hpr]
  simp

/-- C3 witness: the marker-free row `rowB` of a concrete run. -/
theorem extract_marker_spec_witness :
    (∀ r, get_doc_number "https://aleph.example.org/F?func=direct" = .ok r →
      ∃ pre, ("https://aleph.example.org/F?func=direct" : String).data =
        pre ++ (markerL ++ r.data))
    ∧ ((∃ e, get_doc_number "https://aleph.example.org/F?func=direct" = .error e) ↔
        ∀ pre suf : List Char,
          ("https://aleph.example.org/F?func=direct" : String).data ≠
            pre ++ (markerL ++ suf))
    ∧ (∀ e, get_doc_number "https://aleph.example.org/F?func=direct" = .error e →
        mainLoop cfg0 lookup0 (rowB :: [rowA]) =
          ((mainLoop cfg0 lookup0 [rowA]).1.map
            (fun p => (p.1, ("Could not find doc_number for " ++ "Beta") :: p.2)),
           (mainLoop cfg0 lookup0 [rowA]).2)) :=
  extract_marker_spec cfg0 lookup0 rowB [rowA]
    "https://aleph.example.org/F?func=direct" "Beta" rfl rfl

/-- C4: permalink construction is a pure total function of the resolved
identifier and the fixed configuration: the result is the fixed template URL
ending in `AN=<school_code>.oai.edge.fivecolleges.folio.ebsco.com.fs00001006.`
followed by the identifier with every hyphen replaced by a period and no
other character altered; in particular "abc-123-xyz" maps to "abc.123.xyz". -/
theorem build_permalink_template (cfg : Config) (fid : String) :
    (∃ p : String, build_permalink cfg fid =
        p ++ ("AN=" ++ cfg.school_code ++ "." ++
          "oai.edge.fivecolleges.folio.ebsco.com.fs00001006." ++ cleanFolioId fid))
    ∧ List.Forall₂ (fun a b => b = if a = '-' then '.' else a)
        fid.data (cleanFolioId fid).data
    ∧ cleanFolioId "abc-123-xyz" = "abc.123.xyz" := by
  refine ⟨?_, ?_, rfl⟩
  · refine ⟨"https://search.ebscohost.com/login.aspx?" ++ "authtype=ip,guest&" ++
      "custid=" ++ cfg.eds_customer_id ++ "&" ++ "groupid=" ++ cfg.eds_group_id ++
      "&" ++ "profid=" ++ cfg.eds_profile_id ++ "&" ++ "db=" ++ cfg.eds_catalog_id ++
      "&" ++ "direct=true&" ++ "site=eds-live&" ++ "scope=site&", ?_⟩
    simp only [build_permalink, str_append_assoc]
  · have hmap : ∀ l : List Char,
        List.Forall₂ (fun a b => b = if a = '-' then '.' else a) l
          (l.map (fun c => if c = '-' then '.' else c)) := by
      intro l
      induction l with
      | nil => exact List.Forall₂.nil
      | cons c cs ih => exact List.Forall₂.cons rfl ih
    exact hmap fid.data

/-- C5: a row carrying the required Title field whose URL contains the
marker and whose resolution succeeds is emitted exactly once, with its URL
field replaced by the built permalink, `UserDefinedField2` overwritten with
the row's original URL, every other field value unchanged, and the field
set and field order equal to the input row's. -/
theorem emitted_row_frame (cfg : Config) (lookup : String → LookupResponse)
    (h : Holding) (rest : List Holding) (url t dn fid : String)
    (hURL : getItem h "URL" = .ok url)
    (hT : getItem h "Title" = .ok t)
    (hU2 : "UserDefinedField2" ∈ keys h)
    (hdn : get_doc_number url = .ok dn)
    (hres : (get_folio_id cfg lookup dn).1 = .ok fid) :
    ∃ h₂,
      (processRow cfg lookup h).result = .ok (.inl h₂)
      ∧ getItem h₂ "URL" = .ok (build_permalink cfg fid)
      ∧ getItem h₂ "UserDefinedField2" = .ok url
      ∧ (∀ k, k ≠ "URL" → k ≠ "UserDefinedField2" → getItem h₂ k = getItem h k)
      ∧ keys h₂ = keys h
      ∧ mainLoop cfg lookup (h :: rest) =
          ((mainLoop cfg lookup rest).1.map (fun p => (h₂ :: p.1, p.2)),
           requestUrl cfg dn :: (mainLoop cfg lookup rest).2) := by
  have hpr := processRow_success cfg lookup h hURL hT hdn hres
  refine ⟨setItem (setItem h "UserDefinedField2" url) "URL" (build_permalink cfg fid),
    ?_, ?_, ?_, ?_, ?_, ?_⟩
  · rw [hpr]
  · exact getItem_setItem_self "URL" (build_permalink cfg fid) _
  · rw [getItem_setItem_of_ne (by decide) (build_permalink cfg fid)]
    exact getItem_setItem_self "UserDefinedField2" url h
  · intro k hk1 hk2
    rw [getItem_setItem_of_ne hk1 (build_permalink cfg fid),
      getItem_setItem_of_ne hk2 url]
  · have hURLmem : "URL" ∈ keys h := getItem_ok_mem_keys h "URL" url hURL
    have h1 : keys (setItem h "UserDefinedField2" url) = keys h :=
      keys_setItem_of_mem url h hU2
    have h2 : "URL" ∈ keys (setItem h "UserDefinedField2" url) := by
      rw [h1]
      exact hURLmem
    rw [keys_setItem_of_mem (build_permalink cfg fid) _ h2, h1]
  · simp only [mainLoop, hpr]
    simp

/-- C5 witness: the successfully resolved row `rowA` of a concrete run. -/
theorem emitted_row_frame_witness :
    ∃ h₂,
      (processRow cfg0 lookup0 rowA).result = .ok (.inl h₂)
      ∧ getItem h₂ "URL" = .ok (build_permalink cfg0 fidA)
      ∧ getItem h₂ "UserDefinedField2" = .ok urlA
      ∧ (∀ k, k ≠ "URL" → k ≠ "UserDefinedField2" → getItem h₂ k = getItem rowA k)
      ∧ keys h₂ = keys rowA
      ∧ mainLoop cfg0 lookup0 (rowA :: [rowB]) =
          ((mainLoop cfg0 lookup0 [rowB]).1.map (fun p => (h₂ :: p.1, p.2)),
           requestUrl cfg0 "000123" :: (mainLoop cfg0 lookup0 [rowB]).2) :=
  emitted_row_frame cfg0 lookup0 rowA [rowB] urlA "Alpha" "000123" fidA
    rfl rfl (by decide) rfl rfl

/-- C6: on a run without a fatal error, the output collection is exactly the
per-row emissions in input order and the error log is exactly the per-row
error entries in row-encounter order — both arise from one sequential pass
over the rows. -/
theorem output_and_error_order (cfg : Config) (lookup : String → LookupResponse)
    (rows outs : List Holding) (errs : List String)
    (hok : (mainLoop cfg lookup rows).1 = .ok (outs, errs)) :
    outs = rows.filterMap (emitOf cfg lookup)
    ∧ errs = rows.filterMap (errOf cfg lookup) := by
  obtain ⟨e1, e2, _, _, _⟩ := mainLoop_ok_char cfg lookup rows outs errs hok
  exact ⟨e1, e2⟩

/-- C6 witness: the concrete three-row run, whose output collection is the
single emitted row and whose error log lists the two failures in order. -/
theorem output_and_error_order_witness :
    ([updA] : List Holding) = [rowA, rowB, rowC].filterMap (emitOf cfg0 lookup0)
    ∧ (["Could not find doc_number for Beta",
        "Could not find FOLIO ID for Gamma - 000999"] : List String) =
      [rowA, rowB, rowC].filterMap (errOf cfg0 lookup0) :=
  output_and_error_order cfg0 lookup0 [rowA, rowB, rowC] [updA]
    ["Could not find doc_number for Beta", "Could not find FOLIO ID for Gamma - 000999"]
    rfl

/-- C7: on a run without a fatal error, the HTTP request trace is exactly
one lookup per row whose identifier extraction succeeded, keyed by that
row's legacy identifier and in row order — no caching, deduplication,
retrying or batching, so equal identifiers on different rows each trigger
their own lookup. -/
theorem one_lookup_per_extracted_row (cfg : Config) (lookup : String → LookupResponse)
    (rows outs : List Holding) (errs : List String)
    (hok : (mainLoop cfg lookup rows).1 = .ok (outs, errs)) :
    (mainLoop cfg lookup rows).2 =
      rows.filterMap (fun h => (extractedKey h).map (requestUrl cfg)) := by
  obtain ⟨_, _, e3, _, _⟩ := mainLoop_ok_char cfg lookup rows outs errs hok
  exact e3

/-- C7 witness: a run over the same row twice — the same legacy identifier
produces two separate lookups, one per row. -/
theorem one_lookup_per_extracted_row_witness :
    ((mainLoop cfg0 lookup0 [rowA, rowA]).2 =
      [rowA, rowA].filterMap (fun h => (extractedKey h).map (requestUrl cfg0)))
    ∧ (mainLoop cfg0 lookup0 [rowA, rowA]).2 =
      [requestUrl cfg0 "000123", requestUrl cfg0 "000123"] :=
  ⟨one_lookup_per_extracted_row cfg0 lookup0 [rowA, rowA] [updA, updA] [] rfl, rfl⟩

/-- C8 counterexample: a URL can end with the marker while an earlier
occurrence of the marker exists; extraction then uses the first occurrence
and returns a non-empty identifier, so "URL ends with the marker" does not
imply "extraction returns the empty string". -/
theorem trailing_marker_cex :
    urlTwoMarkers.data = ("https://x?doc_number=1&" : String).data ++ markerL
    ∧ get_doc_number urlTwoMarkers = .ok "1&doc_number="
    ∧ ("1&doc_number=" : String) ≠ "" :=
  ⟨rfl, rfl, by decide⟩

/-- C8 (amended): for every row whose URL ends with the marker and contains
no earlier occurrence of it, identifier extraction succeeds and returns the
empty string; the row is not routed to the IdentifierNotFound error path,
and a remote lookup is performed with the empty string as the key. -/
theorem sole_trailing_marker_empty_key (cfg : Config)
    (lookup : String → LookupResponse) (h : Holding) (t url : String)
    (pre : List Char)
    (hURL : getItem h "URL" = .ok url) (hT : getItem h "Title" = .ok t)
    (hend : url.data = pre ++ markerL)
    (hfirst : ∀ j, j < pre.length → markerL.isPrefixOf (url.data.drop j) = false) :
    get_doc_number url = .ok ""
    ∧ (processRow cfg lookup h).queries = [requestUrl cfg ""]
    ∧ (processRow cfg lookup h).result ≠
        .ok (.inr ("Could not find doc_number for " ++ t)) := by
  have hdecomp : url.data = pre ++ (markerL ++ ([] : List Char)) := by simpa using hend
  have hgdn : get_doc_number url = .ok "" :=
    get_doc_number_first_occ hdecomp hfirst
  refine ⟨hgdn, ?_⟩
  rcases hg : get_folio_id cfg lookup "" with ⟨res, q⟩
  have hq : q = [requestUrl cfg ""] := by
    have hgq := get_folio_id_queries cfg lookup ""
    rw [hg] at hgq
    exact hgq
  subst hq
  rcases res with e | fid
  · cases e with
    | indexError m =>
      have hpr : processRow cfg lookup h =
          ⟨.ok (.inr ("Could not find FOLIO ID for " ++ t ++ " - " ++ "")), h,
           [requestUrl cfg ""]⟩ := by
        simp only [processRow, hURL, hgdn, hg, hT]
      refine ⟨by rw [hpr], ?_⟩
      rw [hpr]
      intro heq
      have hm := Sum.inr.inj (Except.ok.inj heq)
      exact folio_msg_ne_docnum_msg t "" hm
    | keyError k =>
      have hpr : processRow cfg lookup h =
          ⟨.error (.keyError k), h, [requestUrl cfg ""]⟩ := by
        simp only [processRow, hURL, hgdn, hg]
      refine ⟨by rw [hpr], ?_⟩
      rw [hpr]
      simp
  · have hres : (get_folio_id cfg lookup "").1 = .ok fid := by rw [hg]
    have hpr := processRow_success cfg lookup h hURL hT hgdn hres
    refine ⟨by rw [hpr], ?_⟩
    rw [hpr]
    simp

/-- C8 witness: the row `rowD`, whose URL is `https://x?doc_number=` with
its sole marker occurrence at the very end. -/
theorem sole_trailing_marker_empty_key_witness :
    get_doc_number "https://x?doc_number=" = .ok ""
    ∧ (processRow cfg0 lookup0 rowD).queries = [requestUrl cfg0 ""]
    ∧ (processRow cfg0 lookup0 rowD).result ≠
        .ok (.inr ("Could not find doc_number for " ++ "Delta")) :=
  sole_trailing_marker_empty_key cfg0 lookup0 rowD "Delta" "https://x?doc_number="
    (("https://x?" : String).data) rfl rfl rfl (by decide)

/-- C9: a row routed to the error collection (by either failure kind) is
never mutated: the row's final state equals its input state, so its URL and
UserDefinedField2 fields retain their input values — the provenance copy
and URL replacement happen only after both stages have succeeded. -/
theorem errored_row_not_mutated (cfg : Config) (lookup : String → LookupResponse)
    (h : Holding) (msg : String)
    (hmsg : (processRow cfg lookup h).result = .ok (.inr msg)) :
    (processRow cfg lookup h).final = h
    ∧ getItem (processRow cfg lookup h).final "URL" = getItem h "URL"
    ∧ getItem (processRow cfg lookup h).final "UserDefinedField2" =
        getItem h "UserDefinedField2" := by
  have hfin : (processRow cfg lookup h).final = h := by
    rcases hu : getItem h "URL" with e | url
    · simp [processRow, hu] at hmsg
    · rcases hd : get_doc_number url with e | dn
      · have he := get_doc_number_error_shape hd
        subst he
        rcases ht : getItem h "Title" with e' | t
        · simp [processRow, hu, hd, ht] at hmsg
        · simp [processRow, hu, hd, ht]
      · rcases hg : get_folio_id cfg lookup dn with ⟨res, q⟩
        rcases res with e | fid
        · cases e with
          | indexError m =>
            rcases ht : getItem h "Title" with e' | t
            · simp [processRow, hu, hd, hg, ht] at hmsg
            · simp [processRow, hu, hd, hg, ht]
          | keyError k => simp [processRow, hu, hd, hg] at hmsg
        · rcases ht2 : getItem (setItem (setItem h "UserDefinedField2" url) "URL"
              (build_permalink cfg fid)) "Title" with e' | t'
          · simp [processRow, hu, hd, hg, ht2] at hmsg
          · simp [processRow, hu, hd, hg, ht2] at hmsg
  exact ⟨hfin, by rw [hfin], by rw [hfin]⟩

/-- C9 witness: the extraction-failure row `rowB` of a concrete run. -/
theorem errored_row_not_mutated_witness :
    (processRow cfg0 lookup0 rowB).final = rowB
    ∧ getItem (processRow cfg0 lookup0 rowB).final "URL" = getItem rowB "URL"
    ∧ getItem (processRow cfg0 lookup0 rowB).final "UserDefinedField2" =
        getItem rowB "UserDefinedField2" :=
  errored_row_not_mutated cfg0 lookup0 rowB "Could not find doc_number for Beta" rfl

/-- C10: when the marker occurs at a position before which it does not
occur (its first occurrence), extraction returns everything after that
occurrence to the end of the string — including any later occurrences of
the marker text itself. -/
theorem extraction_uses_first_occurrence (url : String) (pre suf : List Char)
    (hdecomp : url.data = pre ++ (markerL ++ suf))
    (hfirst : ∀ j, j < pre.length → markerL.isPrefixOf (url.data.drop j) = false) :
    get_doc_number url = .ok ⟨suf⟩ :=
  get_doc_number_first_occ hdecomp hfirst

/-- C10 witness: a URL carrying the marker twice; the extracted identifier
is everything after the first occurrence and still contains the second
occurrence of the marker text. -/
theorem extraction_uses_first_occurrence_witness :
    get_doc_number urlDouble = .ok "1&doc_number=2" :=
  extraction_uses_first_occurrence urlDouble (("a?" : String).data)
    (("1&doc_number=2" : String).data) rfl (by decide)

end EdsPermalinks
